import Mathlib

/-!
# CloudRealm core simulation: a shallow embedding

This file embeds the progression-and-combat core of the CloudRealm game in
Lean 4 and proves the specified properties about it.

The embedding follows the sources:
* `src/types/game.ts` — the `GameState` record,
* `src/App.tsx` — the initial state,
* `src/components/Player.tsx` — movement integration, card pickup
  (proximity and force-select), the selection cooldown, fell-off reset,
* `src/components/Boss.tsx` — the damage formula and the attack tick,
* `src/components/Game.tsx` — `updateBossHealth`, the boss mount condition,
  the self-healing consistency effect, and the restart handler,
* the `PortalManager` class — exit-portal URL construction and per-tick
  portal collision checks.

JavaScript numbers are modelled as `ℚ`; `Math.round` is round-half-up
(`⌊q + 1/2⌋`), which agrees with IEEE double evaluation of the damage
formula on every reachable equipment combination (no product of the finite
constant set falls close enough to a half-integer boundary for the
double-precision representation error of `1.2`/`1.3`/`1.5` to change the
rounding).

The game is single-threaded: every write to the shared `GameState` happens
in one of a small set of handlers.  The model is an explicit event-step
system: one `World` record holding the `GameState` together with the two
pieces of hidden component state that gate those handlers (the pickup
cooldown of `Player.tsx` and the mounted boss's local state of
`Boss.tsx`), and one total `step` function dispatching on the event kind.
Inputs the handlers read from the environment (the smoothed velocity, the
lerped mesh position, the wall-clock time in seconds) are carried by the
events, so every theorem quantifies over all of them.
-/

attribute [local semireducible] Rat.add Rat.mul Rat.inv Rat.sub Rat.ofScientific

namespace CloudRealm

/-- Type `WeaponType` from `src/types/game.ts`. -/
inductive WeaponType where
  | sword
  | axe
  | fist
deriving DecidableEq, Repr

/-- Type `ArmourType` from `src/types/game.ts`. -/
inductive ArmourType where
  | steel
  | knowledge
  | gold
deriving DecidableEq, Repr

/-- Type `MagicType` from `src/types/game.ts`. -/
inductive MagicType where
  | fire
  | water
  | love
deriving DecidableEq, Repr

/-- The `GameState` record of `src/types/game.ts` (the revision with
`isInvulnerable`, `bossHealth` and `bossDefeated`, as used by `App.tsx`,
`Player.tsx` and `Game.tsx`).  `position` is the pair `(x, z)`;
`collectedBlocks` is the list of card coordinates `(x, z)` in insertion
order. -/
structure GameState where
  weapon : Option WeaponType
  armour : Option ArmourType
  magic : Option MagicType
  position : ℚ × ℚ
  stage : ℕ
  collectedBlocks : List (ℚ × ℚ)
  isInvulnerable : Bool
  bossHealth : ℚ
  bossDefeated : Bool
deriving DecidableEq, Repr

/-- The initial `GameState` created in `App.tsx`. -/
def initialGameState : GameState where
  weapon := none
  armour := none
  magic := none
  position := (0, 0)
  stage := 0
  collectedBlocks := []
  isInvulnerable := false
  bossHealth := 100
  bossDefeated := false

/-- The test `gameState.weapon !== null && gameState.armour !== null &&
gameState.magic !== null` — `hasAllItems` in `Game.tsx`, and the same
truthiness test `gameState.magic && gameState.weapon && gameState.armour`
guarding the attack block in `Boss.tsx`. -/
def hasAllItems (gs : GameState) : Bool :=
  gs.weapon.isSome && gs.armour.isSome && gs.magic.isSome

/-- The number of equipment slots that are set. -/
def slotCount (gs : GameState) : ℕ :=
  (if gs.weapon.isSome then 1 else 0) +
    (if gs.armour.isSome then 1 else 0) +
    (if gs.magic.isSome then 1 else 0)

/-- JavaScript `Math.round`: round half toward positive infinity. -/
def mathRound (q : ℚ) : ℤ := ⌊q + 1/2⌋

/-- Function `calculateDamage` from `Boss.tsx`: base damage 10 (the `combatState`
constant), additive weapon and armour bonuses, a multiplicative magic
factor, rounded with `Math.round`.  The `if`/`else if` chains mirror the
source; an unset slot contributes nothing. -/
def calculateDamage (gs : GameState) : ℤ :=
  let damage : ℚ := 10
  let damage :=
    if gs.weapon = some .axe then damage + 3
    else if gs.weapon = some .sword then damage + 2
    else if gs.weapon = some .fist then damage + 1
    else damage
  let damage :=
    if gs.armour = some .steel then damage + 2
    else if gs.armour = some .gold then damage + 1
    else if gs.armour = some .knowledge then damage + 3
    else damage
  let damage :=
    if gs.magic = some .fire then damage * (3/2)
    else if gs.magic = some .water then damage * (6/5)
    else if gs.magic = some .love then damage * (13/10)
    else damage
  mathRound damage

/-- Weapon bonus table as the spec states it (axe +3, sword +2, fist +1). -/
def weaponBonusSpec : WeaponType → ℚ
  | .axe => 3
  | .sword => 2
  | .fist => 1

/-- Armour bonus table as the spec states it (steel +2, gold +1,
knowledge +3). -/
def armourBonusSpec : ArmourType → ℚ
  | .steel => 2
  | .gold => 1
  | .knowledge => 3

/-- Magic multiplier table as the spec states it (fire ×1.5, water ×1.2,
love ×1.3). -/
def magicMultiplierSpec : MagicType → ℚ
  | .fire => 3/2
  | .water => 6/5
  | .love => 13/10

/-- The damage formula exactly as the spec's words describe it:
`round((base + weapon bonus + armor bonus) * magic multiplier)` with base
damage 10. -/
def damageFormulaSpec (w : WeaponType) (a : ArmourType) (m : MagicType) : ℤ :=
  mathRound ((10 + weaponBonusSpec w + armourBonusSpec a) * magicMultiplierSpec m)

/-- The payload of a pickup card: which slot it fills and with what. -/
inductive CardType where
  | weapon (w : WeaponType)
  | armour (a : ArmourType)
  | magic (m : MagicType)
deriving DecidableEq, Repr

/-- A pickup card: world coordinate and payload, as in the
`stageCardPositions` table of `Player.tsx`. -/
structure Card where
  x : ℚ
  z : ℚ
  ctype : CardType
deriving DecidableEq, Repr

/-- The `stageCardPositions` table of `Player.tsx`: stage 0 weapons at
`z = 10`, stage 1 armour at `z = 25`, stage 2 magic at `z = 40`, each at
`x ∈ {-2, 0, 2}`. -/
def stageCardPositions : List (List Card) :=
  [ [⟨-2, 10, .weapon .sword⟩, ⟨0, 10, .weapon .fist⟩, ⟨2, 10, .weapon .axe⟩],
    [⟨-2, 25, .armour .steel⟩, ⟨0, 25, .armour .knowledge⟩, ⟨2, 25, .armour .gold⟩],
    [⟨-2, 40, .magic .fire⟩, ⟨0, 40, .magic .water⟩, ⟨2, 40, .magic .love⟩] ]

/-- The cast `cardType as WeaponType` in `applyCardSelection`.  Callers only ever
pass a card drawn from `stageCardPositions[stage]`, so the cast is applied
to a weapon payload whenever `stage = 0`. -/
def CardType.asWeapon : CardType → Option WeaponType
  | .weapon w => some w
  | _ => none

/-- The cast `cardType as ArmourType` in `applyCardSelection`. -/
def CardType.asArmour : CardType → Option ArmourType
  | .armour a => some a
  | _ => none

/-- The cast `cardType as MagicType` in `applyCardSelection`. -/
def CardType.asMagic : CardType → Option MagicType
  | .magic m => some m
  | _ => none

/-- The boss component's local state (`Boss.tsx`): the wall-clock second
of the last attack (`combatState.lastAttackTime`), and the `isDescending`
and `isDying` flags.  Rebuilt fresh each time the boss mounts. -/
structure BossState where
  lastAttackTime : ℚ
  isDescending : Bool
  isDying : Bool
deriving DecidableEq, Repr

/-- The whole single-threaded world: the shared `GameState`, the player
component's pickup-cooldown state (`cooldownRef` together with the wall
clock second at which its 1000 ms release timeout was armed), and the
mounted boss's local state (`none` when the boss is not mounted). -/
structure World where
  gs : GameState
  cooldownSetAt : Option ℚ
  boss : Option BossState
deriving DecidableEq, Repr

/-- The world at session start: initial `GameState`, no cooldown, boss not
mounted. -/
def initialWorld : World :=
  { gs := initialGameState, cooldownSetAt := none, boss := none }

/-- Whether `cooldownRef.current` is `true` at wall-clock second `t`: a
successful pickup sets it and a 1000 ms `setTimeout` clears it. -/
def cooldownActive (w : World) (t : ℚ) : Bool :=
  match w.cooldownSetAt with
  | some t0 => decide (t < t0 + 1)
  | none => false

/-- Function `applyCardSelection` from `Player.tsx`: bail out during the cooldown;
otherwise set the slot selected by `stage` (0 weapon, 1 armour, 2 magic),
advance `stage` to 1 from 0 and to 2 from 1 (the magic stage does not
advance it), append the card's coordinate to `collectedBlocks`, keep every
other field, and arm the cooldown.  (The audio side effects of the source
are outside the model.) -/
def applyCardSelection (w : World) (t : ℚ) (stage : ℕ) (card : Card) : World :=
  if cooldownActive w t then w
  else
    { gs :=
        { weapon := if stage = 0 then card.ctype.asWeapon else w.gs.weapon
          armour := if stage = 1 then card.ctype.asArmour else w.gs.armour
          magic := if stage = 2 then card.ctype.asMagic else w.gs.magic
          position := w.gs.position
          stage := if stage = 0 then 1 else if stage = 1 then 2 else w.gs.stage
          collectedBlocks := w.gs.collectedBlocks ++ [(card.x, card.z)]
          isInvulnerable := w.gs.isInvulnerable
          bossHealth := w.gs.bossHealth
          bossDefeated := w.gs.bossDefeated }
      cooldownSetAt := some t
      boss := w.boss }

/-- Function `forceSelectCard` from `Player.tsx` (the 1/2/3 number keys): bail out
during the cooldown or when the stage or index is out of range, otherwise
select the indexed card of the current stage. -/
def forceSelectCard (w : World) (t : ℚ) (cardIndex : ℕ) : World :=
  if cooldownActive w t then w
  else
    match stageCardPositions[w.gs.stage]?.bind fun cards => cards[cardIndex]? with
    | some card => applyCardSelection w t w.gs.stage card
    | none => w

/-- Whether a card's coordinate is already in `collectedBlocks`
(`gameState.collectedBlocks.some(...)` in the proximity loop). -/
def isCollected (gs : GameState) (card : Card) : Bool :=
  gs.collectedBlocks.any fun b => b.1 == card.x && b.2 == card.z

/-- The proximity test of the `useFrame` loop: the source compares
`Math.sqrt(dx*dx + dz*dz) < 1.0`; both sides are nonnegative, so this is
equivalent to comparing the squares. -/
def collides (px pz : ℚ) (card : Card) : Bool :=
  decide ((px - card.x) * (px - card.x) + (pz - card.z) * (pz - card.z) < 1)

/-- The card the `useFrame` proximity loop of `Player.tsx` selects at mesh
position `(px, pz)`: the first not-yet-collected card of the current stage
within distance 1, provided the stage indexes into the table. -/
def findHitCard (gs : GameState) (px pz : ℚ) : Option Card :=
  stageCardPositions[gs.stage]?.bind fun cards =>
    cards.find? fun card => !isCollected gs card && collides px pz card

/-- The state written by the fell-off-the-path branch of the `useFrame`
loop of `Player.tsx`: equipment cleared, start position, stage 0, no
collected blocks, invulnerability off, `bossHealth` and `bossDefeated`
carried over. -/
def fellOffReset (gs : GameState) : GameState :=
  { weapon := none
    armour := none
    magic := none
    position := (0, 0)
    stage := 0
    collectedBlocks := []
    isInvulnerable := false
    bossHealth := gs.bossHealth
    bossDefeated := gs.bossDefeated }

/-- One pass of the `useFrame` callback of `Player.tsx` over the shared
state, at mesh position `(px, pz)` and wall-clock second `t`: return early
during the cooldown or while invulnerable; otherwise run the proximity
loop and, when it selects a card, apply the selection and return; finally
check the fell-off condition `Math.abs(x) > 2` and reset. -/
def frameStep (w : World) (px pz t : ℚ) : World :=
  if cooldownActive w t then w
  else if w.gs.isInvulnerable then w
  else
    match findHitCard w.gs px pz with
    | some card => applyCardSelection w t w.gs.stage card
    | none => if 2 < |px| then { w with gs := fellOffReset w.gs } else w

/-- Lateral clamp of `updateMovement` and `handleMobileMove`:
`Math.max(Math.min(x + v, 1.9), -1.9)`. -/
def clampX (x : ℚ) : ℚ := max (min x (19/10)) (-(19/10))

/-- Forward clamp of `updateMovement` and `handleMobileMove`:
`Math.max(Math.min(z + v, 300), -20)`. -/
def clampZ (z : ℚ) : ℚ := max (min z 300) (-20)

/-- One `updateMovement` tick of `Player.tsx` (the shared
keyboard/joystick integration loop).  The smoothed velocity
`(vx, vy)` — the result of the target-velocity/lerp pipeline — is taken
as an input; the tick adds it to the position and clamps per axis, then
`updatePosition` rebuilds the state with only the position changed. -/
def updateMovementStep (w : World) (vx vy : ℚ) : World :=
  { w with gs :=
      { w.gs with position := (clampX (w.gs.position.1 + vx), clampZ (w.gs.position.2 + vy)) } }

/-- The direct-move branch of `handleMobileMove` in `Player.tsx`: inputs
below the 0.01 dead zone are ignored; otherwise the input is scaled by
0.0005 (x negated) and the position updated under the same per-axis
clamps. -/
def handleMobileMoveStep (w : World) (x y : ℚ) : World :=
  if |x| < 1/100 && |y| < 1/100 then w
  else
    { w with gs :=
        { w.gs with position :=
            (clampX (w.gs.position.1 + -x * (1/2000)),
             clampZ (w.gs.position.2 + y * (1/2000))) } }

/-- Function `updateBossHealth` from `Game.tsx`: one state replacement writing the
new health and `bossDefeated = (newHealth <= 0)`, all other fields
copied. -/
def updateBossHealth (gs : GameState) (newHealth : ℚ) : GameState :=
  { gs with bossHealth := newHealth, bossDefeated := decide (newHealth ≤ 0) }

/-- The attack block of the boss's `useFrame` in `Boss.tsx`, at wall-clock
second `t` (a no-op when the boss is not mounted): if the boss is neither
descending nor dying, all equipment is set, and more than
`attackInterval = 1.0` seconds have passed since `lastAttackTime`, apply
`max(0, health - calculateDamage)` through `updateBossHealth`, set
`isDying` when the new health is ≤ 0, and reset `lastAttackTime` to `t`. -/
def attackStep (w : World) (t : ℚ) : World :=
  match w.boss with
  | none => w
  | some b =>
    if !b.isDescending && !b.isDying && hasAllItems w.gs then
      if decide (1 < t - b.lastAttackTime) then
        let newHealth := max 0 (w.gs.bossHealth - (calculateDamage w.gs : ℚ))
        { gs := updateBossHealth w.gs newHealth
          cooldownSetAt := w.cooldownSetAt
          boss := some
            { lastAttackTime := t
              isDescending := b.isDescending
              isDying := b.isDying || decide (newHealth ≤ 0) } }
      else w
    else w

/-- The 3000 ms `setTimeout` of `Boss.tsx` that ends the descent
animation (`setIsDescending(false)`). -/
def descendEndStep (w : World) : World :=
  match w.boss with
  | some b => { w with boss := some { b with isDescending := false } }
  | none => w

/-- The defensive consistency effect of `Game.tsx`: if the tracked health
is ≤ 0 but `bossDefeated` is not set, rewrite the state with health 0 and
`bossDefeated = true`. -/
def selfHealStep (w : World) : World :=
  if decide (w.gs.bossHealth ≤ 0) && !w.gs.bossDefeated then
    { w with gs := { w.gs with bossHealth := 0, bossDefeated := true } }
  else w

/-- The state written by `handleRestartGame` in `Game.tsx`: everything
back to initial values, except the player is temporarily invulnerable. -/
def restartGameState : GameState :=
  { weapon := none
    armour := none
    magic := none
    position := (0, 0)
    stage := 0
    collectedBlocks := []
    isInvulnerable := true
    bossHealth := 100
    bossDefeated := false }

/-- The restart action (`handleRestartGame`). -/
def restartStep (w : World) : World :=
  { w with gs := restartGameState }

/-- The 1000 ms post-restart timeout of `handleRestartGame` that turns
invulnerability back off (the `window.setGameState` path, which reads the
current state). -/
def invulnerabilityOffStep (w : World) : World :=
  { w with gs := { w.gs with isInvulnerable := false } }

/-- The React render of `Game.tsx` mounts the boss exactly when
`hasAllItems && !gameState.bossDefeated`; mounting creates fresh local
state (`lastAttackTime = 0`, descending, not dying), unmounting discards
it.  Applied after every event, mirroring the re-render after a state
update. -/
def syncBoss (w : World) : World :=
  if hasAllItems w.gs && !w.gs.bossDefeated then
    match w.boss with
    | some _ => w
    | none => { w with boss := some { lastAttackTime := 0, isDescending := true, isDying := false } }
  else { w with boss := none }

/-- The events of the single-threaded loop.  Each carries the
environment inputs its handler reads: the smoothed velocity for a
movement tick, the raw joystick vector for a direct mobile move, the
lerped mesh position and the wall-clock second for a player frame, the
card index and second for a force-select, the second for a boss attack
frame. -/
inductive Event where
  | move (vx vy : ℚ)
  | mobileMove (x y : ℚ)
  | frame (px pz t : ℚ)
  | force (cardIndex : ℕ) (t : ℚ)
  | attack (t : ℚ)
  | descendEnd
  | selfHeal
  | restart
  | invulnerabilityOff
deriving DecidableEq, Repr

/-- Whether an event is a force-select-by-index pickup. -/
def Event.isForce : Event → Bool
  | .force _ _ => true
  | _ => false

/-- Dispatch one event to its handler. -/
def stepRaw (w : World) : Event → World
  | .move vx vy => updateMovementStep w vx vy
  | .mobileMove x y => handleMobileMoveStep w x y
  | .frame px pz t => frameStep w px pz t
  | .force i t => forceSelectCard w t i
  | .attack t => attackStep w t
  | .descendEnd => descendEndStep w
  | .selfHeal => selfHealStep w
  | .restart => restartStep w
  | .invulnerabilityOff => invulnerabilityOffStep w

/-- One event followed by the re-render's boss mount/unmount. -/
def step (w : World) (e : Event) : World :=
  syncBoss (stepRaw w e)

/-- The world after a sequence of events from session start. -/
def run (es : List Event) : World :=
  es.foldl step initialWorld

/-- A world is reachable when some event sequence produces it. -/
def Reachable (w : World) : Prop :=
  ∃ es : List Event, run es = w

/-- Position bounds the movement integrator is supposed to maintain:
`x ∈ [-1.9, 1.9]`, `z ∈ [-20, 300]`. -/
def inMovementBounds (p : ℚ × ℚ) : Prop :=
  -(19/10) ≤ p.1 ∧ p.1 ≤ 19/10 ∧ -20 ≤ p.2 ∧ p.2 ≤ 300

/-- Equality of the five fields the pickup resolver may write. -/
def sameSelectionState (w₁ w₂ : World) : Prop :=
  w₁.gs.weapon = w₂.gs.weapon ∧ w₁.gs.armour = w₂.gs.armour ∧
    w₁.gs.magic = w₂.gs.magic ∧ w₁.gs.stage = w₂.gs.stage ∧
    w₁.gs.collectedBlocks = w₂.gs.collectedBlocks

/-- Method `URLSearchParams.has` over a parameter list. -/
def urlHasKey (params : List (String × String)) (k : String) : Bool :=
  params.any fun kv => kv.1 == k

/-- The `username` value of `handleExitPortalEntry`: the socket id when
connected, otherwise `player_<random 0..9999>`. -/
def exitPortalUsername (socketId : Option String) (guestNum : ℕ) : String :=
  match socketId with
  | some id => id
  | none => "player_" ++ toString guestNum

/-- The parameter list built by `PortalManager.handleExitPortalEntry`:
`portal=true`, the username, `color=white`, `ref=<host><path>`,
`speed=3`, then every current parameter appended in order when its key is
not already present and is not `portal`. -/
def buildExitPortalParams (socketId : Option String) (guestNum : ℕ)
    (host path : String) (current : List (String × String)) : List (String × String) :=
  let ps := [("portal", "true")]
  let ps := ps ++ [("username", exitPortalUsername socketId guestNum)]
  let ps := ps ++ [("color", "white")]
  let ps := ps ++ [("ref", host ++ path)]
  let ps := ps ++ [("speed", "3")]
  current.foldl
    (fun acc kv => if !urlHasKey acc kv.1 && kv.1 != "portal" then acc ++ [kv] else acc) ps

/-- A three.js `Box3`: axis-aligned, given by two corners. -/
structure Box3 where
  minX : ℚ
  minY : ℚ
  minZ : ℚ
  maxX : ℚ
  maxY : ℚ
  maxZ : ℚ
deriving DecidableEq, Repr

/-- Method `Box3.expandByScalar`. -/
def Box3.expandByScalar (b : Box3) (s : ℚ) : Box3 :=
  ⟨b.minX - s, b.minY - s, b.minZ - s, b.maxX + s, b.maxY + s, b.maxZ + s⟩

/-- A three.js `Vector3` point. -/
structure Vec3 where
  x : ℚ
  y : ℚ
  z : ℚ
deriving DecidableEq, Repr

/-- Method `Box3.containsPoint`. -/
def Box3.containsPoint (b : Box3) (p : Vec3) : Bool :=
  decide (b.minX ≤ p.x) && decide (p.x ≤ b.maxX) &&
    (decide (b.minY ≤ p.y) && decide (p.y ≤ b.maxY)) &&
    (decide (b.minZ ≤ p.z) && decide (p.z ≤ b.maxZ))

/-- The page-level effects of `PortalManager.handleExitPortalEntry`:
how many times `window.location.href` has been assigned, and whether the
hidden preload iframe exists. -/
structure PortalPageState where
  navigationFires : ℕ
  preloadFrameCreated : Bool
deriving DecidableEq, Repr

/-- Method `PortalManager.handleExitPortalEntry`: the preload iframe is created
only if absent, but `window.location.href` is assigned unconditionally on
every call — there is no fired-already guard. -/
def handleExitPortalEntry (st : PortalPageState) : PortalPageState :=
  { navigationFires := st.navigationFires + 1
    preloadFrameCreated := true }

/-- The exit-portal half of `PortalManager.checkPortalCollisions`, run
every frame by `Bridge.tsx`: expand the portal box by 1.5 and, whenever
the player point is inside, call `handleExitPortalEntry`. -/
def checkExitPortalCollision (exitBox : Box3) (player : Vec3)
    (st : PortalPageState) : PortalPageState :=
  if (exitBox.expandByScalar (3/2)).containsPoint player then handleExitPortalEntry st
  else st

/-- The structural invariant the pickup state machine maintains: the stage
index determines which slots are set, except that the magic slot is
unconstrained at stage 2 (selecting magic does not advance the stage). -/
def ProgressionInv (gs : GameState) : Prop :=
  (gs.stage = 0 ∧ gs.weapon = none ∧ gs.armour = none ∧ gs.magic = none) ∨
    (gs.stage = 1 ∧ gs.weapon.isSome = true ∧ gs.armour = none ∧ gs.magic = none) ∨
    (gs.stage = 2 ∧ gs.weapon.isSome = true ∧ gs.armour.isSome = true)

/-- A concrete mid-encounter world used to instantiate theorems: all
equipment chosen, boss mounted, descent finished, last attack at second
0. -/
def encounterWorld : World :=
  { gs := { initialGameState with
      weapon := some .axe, armour := some .knowledge, magic := some .fire }
    cooldownSetAt := none
    boss := some { lastAttackTime := 0, isDescending := false, isDying := false } }

/-- A concrete event sequence that defeats the boss: pick the first card
of each stage (sword, steel, fire — 21 damage per attack), end the
descent, then five attacks. -/
def defeatRun : List Event :=
  [.force 0 0, .force 0 2, .force 0 4, .descendEnd,
   .attack 6, .attack 8, .attack 10, .attack 12, .attack 14]

/-- A concrete world whose pickup cooldown was armed at second 0. -/
def cooldownWorld : World :=
  { gs := initialGameState, cooldownSetAt := some 0, boss := none }

/-! ## General lemmas about the step system -/

theorem syncBoss_gs (w : World) : (syncBoss w).gs = w.gs := by
  unfold syncBoss
  split
  · split <;> rfl
  · rfl

theorem syncBoss_cooldownSetAt (w : World) :
    (syncBoss w).cooldownSetAt = w.cooldownSetAt := by
  unfold syncBoss
  split
  · split <;> rfl
  · rfl

theorem step_gs (w : World) (e : Event) : (step w e).gs = (stepRaw w e).gs :=
  syncBoss_gs _

theorem run_invariant {P : World → Prop} (h0 : P initialWorld)
    (hstep : ∀ w e, P w → P (step w e)) : ∀ es, P (run es) := by
  have aux : ∀ (es : List Event) (w : World), P w → P (es.foldl step w) := by
    intro es
    induction es with
    | nil => exact fun w hw => hw
    | cons e rest ih => exact fun w hw => ih _ (hstep w e hw)
  exact fun es => aux es _ h0

theorem run_invariant_of {P : World → Prop} {Q : Event → Prop} (h0 : P initialWorld)
    (hstep : ∀ w e, Q e → P w → P (step w e)) :
    ∀ es, (∀ e ∈ es, Q e) → P (run es) := by
  have aux : ∀ (es : List Event) (w : World), (∀ e ∈ es, Q e) → P w → P (es.foldl step w) := by
    intro es
    induction es with
    | nil => exact fun w _ hw => hw
    | cons e rest ih =>
        intro w hq hw
        exact ih _ (fun x hx => hq x (List.mem_cons_of_mem e hx))
          (hstep w e (hq e (List.mem_cons_self e rest)) hw)
  exact fun es hq => aux es _ hq h0

theorem reachable_invariant {P : World → Prop} (h0 : P initialWorld)
    (hstep : ∀ w e, P w → P (step w e)) {w : World} (h : Reachable w) : P w := by
  obtain ⟨es, rfl⟩ := h
  exact run_invariant h0 hstep es

/-! ## Claim C1 — the damage formula -/

/-- Claim C1: whenever all three equipment slots are set, `calculateDamage`
computes `round((base + weapon bonus + armour bonus) * magic multiplier)`
with base 10, weapon bonuses axe +3/sword +2/fist +1, armour bonuses
steel +2/gold +1/knowledge +3 and magic multipliers fire ×1.5/water ×1.2/
love ×1.3; it depends only on the three equipment slots, and the
combination axe/knowledge/fire yields 24. -/
theorem spec_C1_damage_formula :
    (∀ (gs : GameState) (w : WeaponType) (a : ArmourType) (m : MagicType),
        gs.weapon = some w → gs.armour = some a → gs.magic = some m →
          calculateDamage gs = damageFormulaSpec w a m) ∧
    (∀ gs₁ gs₂ : GameState, gs₁.weapon = gs₂.weapon → gs₁.armour = gs₂.armour →
        gs₁.magic = gs₂.magic → calculateDamage gs₁ = calculateDamage gs₂) ∧
    calculateDamage { initialGameState with
      weapon := some .axe, armour := some .knowledge, magic := some .fire } = 24 := by
  refine ⟨?_, ?_, by decide⟩
  · intro gs w a m hw ha hm
    unfold calculateDamage
    rw [hw, ha, hm]
    cases w <;> cases a <;> cases m <;> decide
  · intro gs₁ gs₂ hw ha hm
    unfold calculateDamage
    rw [hw, ha, hm]

/-- Witness for C1 at a concrete equipped state. -/
theorem spec_C1_damage_formula_witness :
    calculateDamage { initialGameState with
        weapon := some .sword, armour := some .gold, magic := some .water } =
      damageFormulaSpec .sword .gold .water :=
  spec_C1_damage_formula.1 _ .sword .gold .water rfl rfl rfl

/-! ## Claim C7 — the fell-off-the-path reset -/

/-- Claim C7: whenever the player-frame handler reaches the fell-off check
(no cooldown, not invulnerable, no card hit) and the lateral mesh
coordinate exceeds the threshold 2 in magnitude, the written `GameState`
has all equipment null, stage 0, empty `collectedBlocks`, start position
`(0, 0)` and invulnerability off, while `bossHealth` and `bossDefeated`
keep their prior values. -/
theorem spec_C7_fell_off_reset (w : World) (px pz t : ℚ)
    (hcd : cooldownActive w t = false) (hinv : w.gs.isInvulnerable = false)
    (hhit : findHitCard w.gs px pz = none) (habs : 2 < |px|) :
    (step w (.frame px pz t)).gs =
      { weapon := none, armour := none, magic := none, position := (0, 0), stage := 0,
        collectedBlocks := [], isInvulnerable := false,
        bossHealth := w.gs.bossHealth, bossDefeated := w.gs.bossDefeated } := by
  rw [step_gs]
  show (frameStep w px pz t).gs = _
  unfold frameStep
  rw [hcd, hinv, hhit]
  simp only [Bool.false_eq_true, if_false, if_pos habs]
  rfl

/-- Witness for C7: falling off at mesh position `x = 3` from the initial
world. -/
theorem spec_C7_fell_off_reset_witness :
    (step initialWorld (.frame 3 0 0)).gs =
      { weapon := none, armour := none, magic := none, position := (0, 0), stage := 0,
        collectedBlocks := [], isInvulnerable := false,
        bossHealth := initialWorld.gs.bossHealth,
        bossDefeated := initialWorld.gs.bossDefeated } :=
  spec_C7_fell_off_reset initialWorld 3 0 0 (by decide) (by decide) (by decide) (by decide)

/-! ## Claim C8 — movement clamps -/

theorem clampX_bounds (x : ℚ) : -(19/10) ≤ clampX x ∧ clampX x ≤ 19/10 := by
  constructor
  · exact le_max_right _ _
  · exact max_le (min_le_right _ _) (by norm_num)

theorem clampZ_bounds (z : ℚ) : -20 ≤ clampZ z ∧ clampZ z ≤ 300 := by
  constructor
  · exact le_max_right _ _
  · exact max_le (min_le_right _ _) (by norm_num)

/-- Claim C8: after every keyboard/joystick integration tick, and after
every direct mobile move that clears the dead zone, the stored position
satisfies `x ∈ [-1.9, 1.9]` and `z ∈ [-20, 300]`, whatever the previous
state and input were. -/
theorem spec_C8_position_bounds :
    (∀ (w : World) (vx vy : ℚ), inMovementBounds (step w (.move vx vy)).gs.position) ∧
    (∀ (w : World) (x y : ℚ), (|x| < 1/100 && |y| < 1/100) = false →
        inMovementBounds (step w (.mobileMove x y)).gs.position) := by
  constructor
  · intro w vx vy
    rw [step_gs]
    show inMovementBounds (updateMovementStep w vx vy).gs.position
    exact ⟨(clampX_bounds _).1, (clampX_bounds _).2, (clampZ_bounds _).1, (clampZ_bounds _).2⟩
  · intro w x y hdz
    rw [step_gs]
    show inMovementBounds (handleMobileMoveStep w x y).gs.position
    unfold handleMobileMoveStep
    rw [hdz]
    simp only [Bool.false_eq_true, if_false]
    exact ⟨(clampX_bounds _).1, (clampX_bounds _).2, (clampZ_bounds _).1, (clampZ_bounds _).2⟩

/-- Witness for C8: a movement tick and an above-dead-zone mobile move
from the initial world. -/
theorem spec_C8_position_bounds_witness :
    inMovementBounds (step initialWorld (.move 5 (-100))).gs.position ∧
      inMovementBounds (step initialWorld (.mobileMove 1 0)).gs.position :=
  ⟨spec_C8_position_bounds.1 initialWorld 5 (-100),
    spec_C8_position_bounds.2 initialWorld 1 0 (by decide)⟩

/-! ## Claim C3 — stage versus slot count -/

/-- Counterexample to claim C3 as stated: after force-selecting the first
card three times (weapon, armour, magic, each after the cooldown), the
reachable state has all three slots set but `stage = 2`, not 3, so `stage`
does not equal the number of set slots. -/
theorem spec_C3_counterexample :
    Reachable (run [.force 0 0, .force 0 2, .force 0 4]) ∧
      (run [.force 0 0, .force 0 2, .force 0 4]).gs.magic.isSome = true ∧
      (run [.force 0 0, .force 0 2, .force 0 4]).gs.stage = 2 ∧
      slotCount (run [.force 0 0, .force 0 2, .force 0 4]).gs = 3 :=
  ⟨⟨_, rfl⟩, by decide, by decide, by decide⟩

/-! ## Claim C4 — at-most-once collection -/

/-- Counterexample to claim C4 as stated: four force-selects of card
index 0 (spaced past the cooldown) append the magic card's coordinate
`(-2, 40)` twice, because `forceSelectCard` never checks
`collectedBlocks` and the magic stage does not advance. -/
theorem spec_C4_counterexample :
    Reachable (run [.force 0 0, .force 0 2, .force 0 4, .force 0 6]) ∧
      (run [.force 0 0, .force 0 2, .force 0 4, .force 0 6]).gs.collectedBlocks.count
          ((-2 : ℚ), (40 : ℚ)) = 2 ∧
      ¬ ((run [.force 0 0, .force 0 2, .force 0 4, .force 0 6]).gs.collectedBlocks.Nodup) :=
  ⟨⟨_, rfl⟩, by decide, by decide⟩

/-! ## Claim C10 — exit-portal navigation refires -/

/-- Claim C10 fails on the code: with the player inside the expanded
exit-portal box on two consecutive frames, `checkPortalCollisions` calls
`handleExitPortalEntry` twice and the navigation assignment fires twice —
there is no one-shot guard. -/
theorem spec_C10_navigation_refires :
    (checkExitPortalCollision ⟨-(5/2), 0, 54, 5/2, 5, 56⟩ ⟨0, 1, 55⟩
        (checkExitPortalCollision ⟨-(5/2), 0, 54, 5/2, 5, 56⟩ ⟨0, 1, 55⟩
          { navigationFires := 0, preloadFrameCreated := false })).navigationFires = 2 := by
  decide

/-! ## Boss mount and health invariants -/

theorem syncBoss_mount (w : World) :
    (syncBoss w).boss.isSome = (hasAllItems w.gs && !w.gs.bossDefeated) := by
  unfold syncBoss
  split
  next h =>
    rw [h]
    split
    next b hb => rw [hb]; rfl
    next => rfl
  next h =>
    simp only [Bool.not_eq_true] at h
    rw [h]
    rfl

theorem mount_step (w : World) (e : Event) :
    (step w e).boss.isSome =
      (hasAllItems (step w e).gs && !(step w e).gs.bossDefeated) := by
  rw [step, syncBoss_mount, syncBoss_gs]

theorem reachable_mount {w : World} (h : Reachable w) :
    w.boss.isSome = (hasAllItems w.gs && !w.gs.bossDefeated) :=
  @reachable_invariant
    (fun x => x.boss.isSome = (hasAllItems x.gs && !x.gs.bossDefeated))
    (by decide) (fun x e _ => mount_step x e) w h

theorem attackStep_eq_none (w : World) (t : ℚ) (hb : w.boss = none) :
    attackStep w t = w := by
  unfold attackStep
  rw [hb]

theorem attackStep_eq_some (w : World) (b : BossState) (t : ℚ) (hb : w.boss = some b) :
    attackStep w t =
      (if (!b.isDescending && !b.isDying && hasAllItems w.gs) = true then
        if decide (1 < t - b.lastAttackTime) = true then
          { gs := updateBossHealth w.gs (max 0 (w.gs.bossHealth - (calculateDamage w.gs : ℚ)))
            cooldownSetAt := w.cooldownSetAt
            boss := some
              { lastAttackTime := t
                isDescending := b.isDescending
                isDying := b.isDying ||
                  decide (max 0 (w.gs.bossHealth - (calculateDamage w.gs : ℚ)) ≤ 0) } }
        else w
      else w) := by
  unfold attackStep
  rw [hb]

theorem healthInv_step (w : World) (e : Event)
    (h : 0 ≤ w.gs.bossHealth ∧ (w.gs.bossDefeated = true ↔ w.gs.bossHealth = 0)) :
    0 ≤ (step w e).gs.bossHealth ∧
      ((step w e).gs.bossDefeated = true ↔ (step w e).gs.bossHealth = 0) := by
  rw [step_gs]
  cases e with
  | move vx vy => exact h
  | mobileMove x y =>
      simp only [stepRaw]
      unfold handleMobileMoveStep
      split <;> exact h
  | frame px pz t =>
      simp only [stepRaw]
      unfold frameStep applyCardSelection fellOffReset
      split
      · exact h
      · split
        · exact h
        · split
          · split
            · exact h
            · exact h
          · split
            · exact h
            · exact h
  | force i t =>
      simp only [stepRaw]
      unfold forceSelectCard applyCardSelection
      split
      · exact h
      · split
        · split
          · exact h
          · exact h
        · exact h
  | attack t =>
      simp only [stepRaw]
      unfold attackStep
      split
      · exact h
      · split
        · split
          · refine ⟨le_max_left _ _, ?_⟩
            show decide (max 0 (w.gs.bossHealth - (calculateDamage w.gs : ℚ)) ≤ 0) = true ↔ _
            rw [decide_eq_true_eq]
            constructor
            · exact fun hle => le_antisymm hle (le_max_left _ _)
            · exact fun he => le_of_eq he
          · exact h
        · exact h
  | descendEnd =>
      simp only [stepRaw]
      unfold descendEndStep
      split <;> exact h
  | selfHeal =>
      simp only [stepRaw]
      unfold selfHealStep
      split
      · exact ⟨le_refl 0, by simp⟩
      · exact h
  | restart =>
      constructor
      · show (0 : ℚ) ≤ 100
        norm_num
      · show false = true ↔ (100 : ℚ) = 0
        decide
  | invulnerabilityOff => exact h

/-! ## Claim C2 — health update and the defeated flag -/

/-- Claim C2: every combat health update writes
`max(0, bossHealth - damage)` and, in the same state replacement,
`bossDefeated = (new health ≤ 0)`; consequently every reachable state has
`bossHealth ≥ 0` and `bossDefeated` true exactly when `bossHealth = 0`. -/
theorem spec_C2_health_update :
    (∀ (w : World) (b : BossState) (t : ℚ), w.boss = some b →
        b.isDescending = false → b.isDying = false → hasAllItems w.gs = true →
        1 < t - b.lastAttackTime →
        (step w (.attack t)).gs.bossHealth =
            max 0 (w.gs.bossHealth - (calculateDamage w.gs : ℚ)) ∧
          (step w (.attack t)).gs.bossDefeated =
            decide ((step w (.attack t)).gs.bossHealth ≤ 0)) ∧
    (∀ w : World, Reachable w →
        0 ≤ w.gs.bossHealth ∧ (w.gs.bossDefeated = true ↔ w.gs.bossHealth = 0)) := by
  constructor
  · intro w b t hb hdesc hdying hall ht
    rw [step_gs]
    simp only [stepRaw]
    simp only [attackStep_eq_some w b t hb, hdesc, hdying, hall]
    have hc1 : (!false && !false && true) = true := rfl
    rw [if_pos hc1, if_pos (decide_eq_true ht)]
    exact ⟨rfl, rfl⟩
  · intro w hr
    exact reachable_invariant (by decide) healthInv_step hr

/-- Witness for C2: a concrete attack from the encounter world, and the
invariant at the initial world. -/
theorem spec_C2_health_update_witness :
    ((step encounterWorld (.attack 2)).gs.bossHealth =
        max 0 (encounterWorld.gs.bossHealth - (calculateDamage encounterWorld.gs : ℚ)) ∧
      (step encounterWorld (.attack 2)).gs.bossDefeated =
        decide ((step encounterWorld (.attack 2)).gs.bossHealth ≤ 0)) ∧
    (0 ≤ initialWorld.gs.bossHealth ∧
      (initialWorld.gs.bossDefeated = true ↔ initialWorld.gs.bossHealth = 0)) :=
  ⟨spec_C2_health_update.1 encounterWorld (⟨0, false, false⟩ : BossState) 2 rfl rfl rfl
      (by decide) (by decide),
    spec_C2_health_update.2 initialWorld ⟨[], rfl⟩⟩

/-! ## Claim C5 — attack cadence and the defeat freeze -/

theorem bossHealth_frozen_step (w : World) (hb : w.boss = none)
    (hd : w.gs.bossDefeated = true) (e : Event) (he : e ≠ .restart) :
    (step w e).gs.bossHealth = w.gs.bossHealth := by
  rw [step_gs]
  cases e with
  | move vx vy => rfl
  | mobileMove x y =>
      simp only [stepRaw]
      unfold handleMobileMoveStep
      split <;> rfl
  | frame px pz t =>
      simp only [stepRaw]
      unfold frameStep applyCardSelection fellOffReset
      split
      · rfl
      · split
        · rfl
        · split
          · split <;> rfl
          · split <;> rfl
  | force i t =>
      simp only [stepRaw]
      unfold forceSelectCard applyCardSelection
      split
      · rfl
      · split
        · split <;> rfl
        · rfl
  | attack t =>
      simp only [stepRaw]
      unfold attackStep
      rw [hb]
  | descendEnd =>
      simp only [stepRaw]
      unfold descendEndStep
      split <;> rfl
  | selfHeal =>
      simp only [stepRaw]
      unfold selfHealStep
      rw [hd]
      simp
  | restart => exact absurd rfl he
  | invulnerabilityOff => rfl

/-- Claim C5: an attack frame changes the boss's health only if more than
the 1.0-second attack interval has elapsed since `lastAttackTime` (so at
least the interval has elapsed), and it then resets `lastAttackTime` to
the firing time; and once `bossDefeated` is true, no event other than the
full restart changes `bossHealth`. -/
theorem spec_C5_attack_cadence :
    (∀ (w : World) (t : ℚ), (attackStep w t).gs.bossHealth ≠ w.gs.bossHealth →
        ∃ b : BossState, w.boss = some b ∧ 1 < t - b.lastAttackTime ∧
          ∃ b₂ : BossState, (attackStep w t).boss = some b₂ ∧ b₂.lastAttackTime = t) ∧
    (∀ w : World, Reachable w → w.gs.bossDefeated = true →
        ∀ e : Event, e ≠ .restart → (step w e).gs.bossHealth = w.gs.bossHealth) := by
  constructor
  · intro w t hne
    rcases hb : w.boss with _ | b
    · rw [attackStep_eq_none w t hb] at hne
      exact absurd rfl hne
    · rw [attackStep_eq_some w b t hb] at hne ⊢
      by_cases h1 : (!b.isDescending && !b.isDying && hasAllItems w.gs) = true
      · rw [if_pos h1] at hne ⊢
        by_cases h2 : decide (1 < t - b.lastAttackTime) = true
        · rw [if_pos h2]
          exact ⟨b, rfl, of_decide_eq_true h2, ⟨_, rfl, rfl⟩⟩
        · rw [if_neg h2] at hne
          exact absurd rfl hne
      · rw [if_neg h1] at hne
        exact absurd rfl hne
  · intro w hr hd e he
    have hmount := reachable_mount hr
    rw [hd] at hmount
    simp only [Bool.not_true, Bool.and_false] at hmount
    have hb : w.boss = none := by
      cases hbv : w.boss with
      | none => rfl
      | some b => rw [hbv] at hmount; simp at hmount
    exact bossHealth_frozen_step w hb hd e he

/-- Witness for C5: a firing attack in the encounter world, and a frozen
health after a boss-defeating run. -/
theorem spec_C5_attack_cadence_witness :
    (∃ b : BossState, encounterWorld.boss = some b ∧ 1 < (2 : ℚ) - b.lastAttackTime ∧
        ∃ b₂ : BossState, (attackStep encounterWorld 2).boss = some b₂ ∧
          b₂.lastAttackTime = 2) ∧
      (step (run defeatRun) .selfHeal).gs.bossHealth = (run defeatRun).gs.bossHealth :=
  ⟨spec_C5_attack_cadence.1 encounterWorld 2 (by decide),
    spec_C5_attack_cadence.2 (run defeatRun) ⟨defeatRun, rfl⟩ (by decide) .selfHeal (by decide)⟩

/-! ## The progression invariant (claim C3) -/

theorem stageCards_fit (s : ℕ) (cards : List Card) (card : Card)
    (hs : stageCardPositions[s]? = some cards) (hc : card ∈ cards) :
    (s = 0 ∧ card.ctype.asWeapon.isSome = true) ∨
      (s = 1 ∧ card.ctype.asArmour.isSome = true) ∨
      (s = 2 ∧ card.ctype.asMagic.isSome = true) := by
  match s with
  | 0 =>
      left
      refine ⟨rfl, ?_⟩
      have h0 : stageCardPositions[(0 : ℕ)]? =
          some [⟨-2, 10, .weapon .sword⟩, ⟨0, 10, .weapon .fist⟩, ⟨2, 10, .weapon .axe⟩] := rfl
      rw [h0] at hs
      obtain rfl := Option.some.inj hs
      simp only [List.mem_cons, List.not_mem_nil, or_false] at hc
      rcases hc with rfl | rfl | rfl <;> rfl
  | 1 =>
      right; left
      refine ⟨rfl, ?_⟩
      have h1 : stageCardPositions[(1 : ℕ)]? =
          some [⟨-2, 25, .armour .steel⟩, ⟨0, 25, .armour .knowledge⟩,
            ⟨2, 25, .armour .gold⟩] := rfl
      rw [h1] at hs
      obtain rfl := Option.some.inj hs
      simp only [List.mem_cons, List.not_mem_nil, or_false] at hc
      rcases hc with rfl | rfl | rfl <;> rfl
  | 2 =>
      right; right
      refine ⟨rfl, ?_⟩
      have h2 : stageCardPositions[(2 : ℕ)]? =
          some [⟨-2, 40, .magic .fire⟩, ⟨0, 40, .magic .water⟩, ⟨2, 40, .magic .love⟩] := rfl
      rw [h2] at hs
      obtain rfl := Option.some.inj hs
      simp only [List.mem_cons, List.not_mem_nil, or_false] at hc
      rcases hc with rfl | rfl | rfl <;> rfl
  | n + 3 => exact Option.noConfusion hs

theorem progressionInv_apply (w : World) (t : ℚ) (card : Card)
    (hget : ∃ cards, stageCardPositions[w.gs.stage]? = some cards ∧ card ∈ cards)
    (h : ProgressionInv w.gs) :
    ProgressionInv (applyCardSelection w t w.gs.stage card).gs := by
  obtain ⟨cards, hcs, hm⟩ := hget
  have hfit := stageCards_fit _ _ _ hcs hm
  unfold applyCardSelection
  split
  · exact h
  · rcases hfit with ⟨hs, hw⟩ | ⟨hs, hw⟩ | ⟨hs, hw⟩
    · rcases h with ⟨_, _, han, hmn⟩ | ⟨h0, _, _, _⟩ | ⟨h0, _, _⟩
      · rw [hs]
        exact Or.inr (Or.inl ⟨rfl, hw, han, hmn⟩)
      · rw [hs] at h0; exact absurd h0 (by decide)
      · rw [hs] at h0; exact absurd h0 (by decide)
    · rcases h with ⟨h0, _, _, _⟩ | ⟨_, hwp, _, _⟩ | ⟨h0, _, _⟩
      · rw [hs] at h0; exact absurd h0 (by decide)
      · rw [hs]
        exact Or.inr (Or.inr ⟨rfl, hwp, hw⟩)
      · rw [hs] at h0; exact absurd h0 (by decide)
    · rcases h with ⟨h0, _, _, _⟩ | ⟨h0, _, _, _⟩ | ⟨_, hwp, hap⟩
      · rw [hs] at h0; exact absurd h0 (by decide)
      · rw [hs] at h0; exact absurd h0 (by decide)
      · rw [hs]
        exact Or.inr (Or.inr ⟨rfl, hwp, hap⟩)

theorem progressionInv_step (w : World) (e : Event) (h : ProgressionInv w.gs) :
    ProgressionInv (step w e).gs := by
  rw [step_gs]
  cases e with
  | move vx vy => exact h
  | mobileMove x y =>
      simp only [stepRaw]
      unfold handleMobileMoveStep
      split <;> exact h
  | frame px pz t =>
      simp only [stepRaw]
      unfold frameStep
      split
      · exact h
      · split
        · exact h
        · rcases hfind : findHitCard w.gs px pz with _ | card
          · simp only []
            split
            · exact Or.inl ⟨rfl, rfl, rfl, rfl⟩
            · exact h
          · unfold findHitCard at hfind
            obtain ⟨cards, hcs, hfd⟩ := Option.bind_eq_some.mp hfind
            exact progressionInv_apply w t card
              ⟨cards, hcs, List.mem_of_find?_eq_some hfd⟩ h
  | force i t =>
      simp only [stepRaw]
      unfold forceSelectCard
      split
      · exact h
      · rcases hfind : (stageCardPositions[w.gs.stage]?.bind fun cards => cards[i]?)
            with _ | card
        · exact h
        · obtain ⟨cards, hcs, hfd⟩ := Option.bind_eq_some.mp hfind
          exact progressionInv_apply w t card ⟨cards, hcs, List.getElem?_mem hfd⟩ h
  | attack t =>
      simp only [stepRaw]
      unfold attackStep
      split
      · exact h
      · split
        · split
          · exact h
          · exact h
        · exact h
  | descendEnd =>
      simp only [stepRaw]
      unfold descendEndStep
      split <;> exact h
  | selfHeal =>
      simp only [stepRaw]
      unfold selfHealStep
      split <;> exact h
  | restart => exact Or.inl ⟨rfl, rfl, rfl, rfl⟩
  | invulnerabilityOff => exact h

/-- Claim C3, amended: in every reachable `GameState`, `stage` equals
`min(count of non-null equipment slots, 2)`: it tracks the slot count for
the weapon and armour pickups, but when the third slot (magic) becomes
set the stage stays at 2 and never reaches 3. -/
theorem spec_C3_stage_slot_count (w : World) (h : Reachable w) :
    w.gs.stage = min (slotCount w.gs) 2 := by
  have hp : ProgressionInv w.gs :=
    @reachable_invariant (fun x => ProgressionInv x.gs)
      (Or.inl ⟨rfl, rfl, rfl, rfl⟩) progressionInv_step w h
  rcases hp with ⟨h0, hw, ha, hm⟩ | ⟨h0, hw, ha, hm⟩ | ⟨h0, hw, ha⟩
  · rw [h0]
    simp [slotCount, hw, ha, hm]
  · rw [h0]
    simp [slotCount, hw, ha, hm]
  · rw [h0]
    cases hm : w.gs.magic.isSome <;> simp [slotCount, hw, ha, hm]

/-- Witness for C3 (amended) at the initial world. -/
theorem spec_C3_stage_slot_count_witness :
    initialWorld.gs.stage = min (slotCount initialWorld.gs) 2 :=
  spec_C3_stage_slot_count initialWorld ⟨[], rfl⟩

/-! ## The no-duplicates invariant (claim C4) -/

theorem isCollected_false_not_mem (gs : GameState) (card : Card)
    (h : isCollected gs card = false) : (card.x, card.z) ∉ gs.collectedBlocks := by
  intro hmem
  apply absurd h
  simp only [isCollected, Bool.not_eq_false, List.any_eq_true]
  exact ⟨(card.x, card.z), hmem, by simp⟩

theorem nodup_append_singleton {α : Type} (l : List α) (a : α)
    (h1 : l.Nodup) (h2 : a ∉ l) : (l ++ [a]).Nodup := by
  rw [List.nodup_append]
  refine ⟨h1, List.nodup_singleton a, fun x hx hxa => ?_⟩
  rw [List.mem_singleton] at hxa
  exact h2 (hxa ▸ hx)

theorem nodupBlocks_step (w : World) (e : Event) (hf : e.isForce = false)
    (h : w.gs.collectedBlocks.Nodup) : (step w e).gs.collectedBlocks.Nodup := by
  rw [step_gs]
  cases e with
  | move vx vy => exact h
  | mobileMove x y =>
      simp only [stepRaw]
      unfold handleMobileMoveStep
      split <;> exact h
  | frame px pz t =>
      simp only [stepRaw]
      unfold frameStep
      split
      · exact h
      · split
        · exact h
        · rcases hfind : findHitCard w.gs px pz with _ | card
          · simp only []
            split
            · exact List.nodup_nil
            · exact h
          · unfold findHitCard at hfind
            obtain ⟨cards, _, hfd⟩ := Option.bind_eq_some.mp hfind
            have hpred := List.find?_some hfd
            have hcol : isCollected w.gs card = false := by
              have h2 := (Bool.and_eq_true _ _ |>.mp hpred).1
              simp at h2
              exact h2
            simp only []
            unfold applyCardSelection
            split
            · exact h
            · exact nodup_append_singleton _ _ h (isCollected_false_not_mem _ _ hcol)
  | force i t => exact absurd hf (by simp [Event.isForce])
  | attack t =>
      simp only [stepRaw]
      unfold attackStep
      split
      · exact h
      · split
        · split
          · exact h
          · exact h
        · exact h
  | descendEnd =>
      simp only [stepRaw]
      unfold descendEndStep
      split <;> exact h
  | selfHeal =>
      simp only [stepRaw]
      unfold selfHealStep
      split <;> exact h
  | restart => exact List.nodup_nil
  | invulnerabilityOff => exact h

/-- Claim C4, amended: over every event sequence whose pickups all go
through the proximity path (no force-select events), each card coordinate
appears in `collectedBlocks` at most once — the proximity loop skips
already-collected coordinates and the cooldown suppresses re-entry.  (The
force-select path can violate this: see the counterexample.) -/
theorem spec_C4_proximity_unique (es : List Event)
    (hf : ∀ e ∈ es, e.isForce = false) :
    (run es).gs.collectedBlocks.Nodup :=
  @run_invariant_of (fun x => x.gs.collectedBlocks.Nodup)
    (fun e => e.isForce = false) List.nodup_nil
    (fun w e he hw => nodupBlocks_step w e he hw) es hf

/-- Witness for C4 (amended): a proximity-only run that collects the
sword card and re-enters its radius after the cooldown. -/
theorem spec_C4_proximity_unique_witness :
    (run [.frame (-2) 10 0, .frame (-2) 10 5, .frame 0 10 7]).gs.collectedBlocks.Nodup :=
  spec_C4_proximity_unique [.frame (-2) 10 0, .frame (-2) 10 5, .frame 0 10 7] (by decide)

/-! ## Claim C6 — the pickup cooldown window -/

/-- Claim C6: a successful pickup (one that appends to `collectedBlocks`),
whether by proximity or by force-select, arms the cooldown at its firing
time; and while the cooldown armed at `t₀` is active (any `t` with
`t < t₀ + 1`, i.e. within the 1000 ms window), neither a player frame nor
a force-select changes equipment, stage or `collectedBlocks`. -/
theorem spec_C6_pickup_cooldown :
    (∀ (w : World) (px pz t : ℚ) (c : ℚ × ℚ),
        (step w (.frame px pz t)).gs.collectedBlocks = w.gs.collectedBlocks ++ [c] →
        (step w (.frame px pz t)).cooldownSetAt = some t) ∧
    (∀ (w : World) (i : ℕ) (t : ℚ),
        (step w (.force i t)).gs.collectedBlocks ≠ w.gs.collectedBlocks →
        (step w (.force i t)).cooldownSetAt = some t) ∧
    (∀ (w : World) (t₀ t : ℚ), w.cooldownSetAt = some t₀ → t < t₀ + 1 →
        ∀ (px pz : ℚ) (i : ℕ),
          sameSelectionState (step w (.frame px pz t)) w ∧
            sameSelectionState (step w (.force i t)) w) := by
  refine ⟨?_, ?_, ?_⟩
  · intro w px pz t c hblocks
    rw [step_gs] at hblocks
    rw [step, syncBoss_cooldownSetAt]
    simp only [stepRaw] at hblocks ⊢
    unfold frameStep at hblocks ⊢
    by_cases hcd : cooldownActive w t = true
    · rw [if_pos hcd] at hblocks
      simp at hblocks
    · rw [if_neg hcd] at hblocks ⊢
      by_cases hinv : w.gs.isInvulnerable = true
      · rw [if_pos hinv] at hblocks
        simp at hblocks
      · rw [if_neg hinv] at hblocks ⊢
        rcases hfind : findHitCard w.gs px pz with _ | card
        · rw [hfind] at hblocks
          simp only [] at hblocks
          split at hblocks
          · simp [fellOffReset] at hblocks
          · simp at hblocks
        · simp only []
          unfold applyCardSelection
          rw [if_neg hcd]
  · intro w i t hblocks
    rw [step_gs] at hblocks
    rw [step, syncBoss_cooldownSetAt]
    simp only [stepRaw] at hblocks ⊢
    unfold forceSelectCard at hblocks ⊢
    by_cases hcd : cooldownActive w t = true
    · rw [if_pos hcd] at hblocks
      exact (hblocks rfl).elim
    · rw [if_neg hcd] at hblocks ⊢
      rcases hfind : (stageCardPositions[w.gs.stage]?.bind fun cards => cards[i]?)
          with _ | card
      · rw [hfind] at hblocks
        exact (hblocks rfl).elim
      · simp only []
        unfold applyCardSelection
        rw [if_neg hcd]
  · intro w t₀ t hset ht px pz i
    have hact : cooldownActive w t = true := by
      unfold cooldownActive
      rw [hset]
      exact decide_eq_true ht
    constructor
    · have hfr : frameStep w px pz t = w := by
        unfold frameStep
        rw [hact]
        rfl
      show sameSelectionState (syncBoss (stepRaw w (.frame px pz t))) w
      simp only [stepRaw]
      rw [hfr]
      unfold sameSelectionState
      rw [syncBoss_gs]
      exact ⟨rfl, rfl, rfl, rfl, rfl⟩
    · have hfo : forceSelectCard w t i = w := by
        unfold forceSelectCard
        rw [hact]
        rfl
      show sameSelectionState (syncBoss (stepRaw w (.force i t))) w
      simp only [stepRaw]
      rw [hfo]
      unfold sameSelectionState
      rw [syncBoss_gs]
      exact ⟨rfl, rfl, rfl, rfl, rfl⟩

/-- Witness for C6: a proximity pickup and a force pickup arm the
cooldown at their firing times, and pickups half a second after an armed
cooldown change nothing. -/
theorem spec_C6_pickup_cooldown_witness :
    (step initialWorld (.frame (-2) 10 0)).cooldownSetAt = some 0 ∧
      (step initialWorld (.force 0 0)).cooldownSetAt = some 0 ∧
      sameSelectionState (step cooldownWorld (.frame (-2) 10 (1/2))) cooldownWorld ∧
      sameSelectionState (step cooldownWorld (.force 0 (1/2))) cooldownWorld :=
  ⟨spec_C6_pickup_cooldown.1 initialWorld (-2) 10 0 ((-2 : ℚ), (10 : ℚ)) (by decide),
    spec_C6_pickup_cooldown.2.1 initialWorld 0 0 (by decide),
    (spec_C6_pickup_cooldown.2.2 cooldownWorld 0 (1/2) rfl (by decide) (-2) 10 0).1,
    (spec_C6_pickup_cooldown.2.2 cooldownWorld 0 (1/2) rfl (by decide) (-2) 10 0).2⟩

/-! ## Claim C9 — the exit-portal parameter set -/

theorem mem_exitParams_foldl (l acc : List (String × String)) (x : String × String)
    (hx : x ∈ acc) :
    x ∈ l.foldl
      (fun acc kv => if !urlHasKey acc kv.1 && kv.1 != "portal" then acc ++ [kv] else acc)
      acc := by
  induction l generalizing acc with
  | nil => exact hx
  | cons kv rest ih =>
      simp only [List.foldl_cons]
      split
      · exact ih _ (List.mem_append_left _ hx)
      · exact ih _ hx

theorem urlHasKey_append (acc : List (String × String)) (kv : String × String)
    (k : String) (hacc : urlHasKey acc k = false) (hne : kv.1 ≠ k) :
    urlHasKey (acc ++ [kv]) k = false := by
  unfold urlHasKey at hacc ⊢
  rw [List.any_append, hacc]
  simp [hne]

theorem exitParams_foldl_adds (l : List (String × String)) (k v : String)
    (hmem : (k, v) ∈ l) (hk : k ≠ "portal") (hnd : (l.map Prod.fst).Nodup) :
    ∀ acc : List (String × String), urlHasKey acc k = false →
      (k, v) ∈ l.foldl
        (fun acc kv => if !urlHasKey acc kv.1 && kv.1 != "portal" then acc ++ [kv] else acc)
        acc := by
  induction l with
  | nil => cases hmem
  | cons kv rest ih =>
      intro acc hacc
      simp only [List.map_cons, List.nodup_cons] at hnd
      simp only [List.foldl_cons]
      rcases List.mem_cons.mp hmem with heq | hmem2
      · rw [← heq]
        have hcond : (!urlHasKey acc (k, v).1 && (k, v).1 != "portal") = true := by
          simp [hacc, hk]
        rw [if_pos hcond]
        exact mem_exitParams_foldl _ _ _ (List.mem_append_right _ (by simp))
      · have hne : kv.1 ≠ k := by
          intro hkk
          exact hnd.1 (hkk ▸ (List.mem_map_of_mem Prod.fst hmem2))
        split
        · exact ih hmem2 hnd.2 _ (urlHasKey_append acc kv k hacc hne)
        · exact ih hmem2 hnd.2 _ hacc

/-- Claim C9: for every socket state, guest id, host, path and current
parameter list (with distinct keys), the exit-portal parameter set
contains `portal=true`, the username (socket id or generated guest id),
the default `color=white`, `ref` equal to host++path — also when the
current parameters carry no `ref` — the default `speed=3`, and every
current parameter whose key is not among those already set. -/
theorem spec_C9_exit_portal_params (socketId : Option String) (guestNum : ℕ)
    (host path : String) (current : List (String × String))
    (hnd : (current.map Prod.fst).Nodup) :
    ("portal", "true") ∈ buildExitPortalParams socketId guestNum host path current ∧
      ("username", exitPortalUsername socketId guestNum) ∈
        buildExitPortalParams socketId guestNum host path current ∧
      ("color", "white") ∈ buildExitPortalParams socketId guestNum host path current ∧
      ("ref", host ++ path) ∈ buildExitPortalParams socketId guestNum host path current ∧
      ("speed", "3") ∈ buildExitPortalParams socketId guestNum host path current ∧
      ∀ k v, (k, v) ∈ current →
        k ∉ (["portal", "username", "color", "ref", "speed"] : List String) →
        (k, v) ∈ buildExitPortalParams socketId guestNum host path current := by
  unfold buildExitPortalParams
  refine ⟨?_, ?_, ?_, ?_, ?_, ?_⟩
  · exact mem_exitParams_foldl _ _ _ (by simp)
  · exact mem_exitParams_foldl _ _ _ (by simp)
  · exact mem_exitParams_foldl _ _ _ (by simp)
  · exact mem_exitParams_foldl _ _ _ (by simp)
  · exact mem_exitParams_foldl _ _ _ (by simp)
  · intro k v hmem hk
    simp only [List.mem_cons, List.not_mem_nil, or_false, not_or] at hk
    obtain ⟨hk1, hk2, hk3, hk4, hk5⟩ := hk
    refine exitParams_foldl_adds current k v hmem hk1 hnd _ ?_
    unfold urlHasKey
    simp [List.any_cons, hk1, hk2, hk3, hk4, hk5, Ne.symm]

/-- Witness for C9 at a concrete disconnected session with one unrelated
current parameter and no pre-existing `ref`. -/
theorem spec_C9_exit_portal_params_witness :
    ("ref", "example.com" ++ "/game") ∈
        buildExitPortalParams none 1234 "example.com" "/game" [("foo", "bar")] ∧
      ("foo", "bar") ∈ buildExitPortalParams none 1234 "example.com" "/game" [("foo", "bar")] :=
  ⟨(spec_C9_exit_portal_params none 1234 "example.com" "/game" [("foo", "bar")]
      (by decide)).2.2.2.1,
    (spec_C9_exit_portal_params none 1234 "example.com" "/game" [("foo", "bar")]
      (by decide)).2.2.2.2.2 "foo" "bar" (by decide) (by decide)⟩

end CloudRealm
